import Mathlib

/-!
Shallow embedding of the Sale-Smell transcription orchestration core.

The definitions below translate, function by function, the TypeScript source:
the file utilities (validateAudioFile and its constants), the AssemblyAIService
class (validateAudioFile, mapTranscriptionToResult, calculateProgress,
retryOperation, handleError, getTranscriptionStatus, pollTranscriptionStatus,
uploadAndTranscribe) and the TranscriptionService orchestrator
(startTranscription).

Modelling conventions:
- A JS value that may be absent (undefined) is an Option.
- JS Error objects, as inspected by handleError, are modelled as a pair of an
  optional response status code and an optional message (JSError).
- Numeric payload fields (timestamps, confidences) are carried opaquely as Int;
  no claim computes with them.
- Network effects are modelled by an environment (Env) giving the outcome of
  the upload call, of each job-creation attempt and of each successive status
  fetch, plus an event trace (Ev) recording network calls, sleeps and progress
  callbacks in order.
- A while loop with a counter is embedded structurally on the remaining number
  of iterations (the fuel equals the loop bound minus the counter; both move in
  lockstep), so that closed runs evaluate by the kernel.
-/

namespace SaleSmell

/-- JS falsy-or on an optional string, as in `o || d` (the empty string is falsy). -/
def jsOrOpt (o : Option String) (d : String) : String :=
  match o with
  | some s => if s = "" then d else s
  | none => d

/-- JS truthiness of an optional string field, as in `if (o)`. -/
def jsTruthyOpt (o : Option String) : Bool :=
  match o with
  | some s => s ≠ ""
  | none => false

/-- A JS Error as observed by handleError: optional `response.status`, optional `message`. -/
structure JSError where
  status : Option Nat
  message : Option String
deriving DecidableEq, Repr

/-- `lastError?.message || "Unknown error"` from retryOperation. -/
def jsMsg (e : JSError) : String := jsOrOpt e.message ("Unknown error")

/-- JS `s.toLowerCase()`, as character-wise lowering (the sentiment labels it
is applied to are plain ASCII). -/
def toLowerCase (s : String) : String := ⟨s.data.map Char.toLower⟩

/- ### Data model: raw provider records and the normalized TranscriptionResult -/

/-- A raw speaker entry as returned by the provider (utterances or speaker-label segments). -/
structure RawSpeakerSegment where
  speaker : String
  text : String
  start : Int
  «end» : Int
  confidence : Int
deriving DecidableEq, Repr

/-- A normalized speaker segment of the TranscriptionResult. -/
structure SpeakerSegment where
  speaker : String
  text : String
  start : Int
  «end» : Int
  confidence : Int
deriving DecidableEq, Repr

/-- A raw sentiment-analysis entry (`sentiment_analysis_results` element). -/
structure RawSentimentEntry where
  text : String
  sentiment : String
  confidence : Int
  start : Int
  «end» : Int
deriving DecidableEq, Repr

/-- A normalized sentiment segment. -/
structure SentimentSegment where
  text : String
  sentiment : String
  confidence : Int
  start : Int
  «end» : Int
deriving DecidableEq, Repr

/-- Sentiment label counts. -/
structure SentimentScores where
  positive : Nat
  negative : Nat
  neutral : Nat
deriving DecidableEq, Repr

/-- Normalized sentiment analysis. -/
structure SentimentAnalysis where
  overall : String
  scores : SentimentScores
  segments : List SentimentSegment
deriving DecidableEq, Repr

/-- A raw PII redaction entry (`pii_redaction_results` element). -/
structure RawRedaction where
  text : String
  type : String
  confidence : Int
  start : Int
  «end» : Int
deriving DecidableEq, Repr

/-- A normalized redaction. -/
structure Redaction where
  text : String
  type : String
  confidence : Int
  start : Int
  «end» : Int
deriving DecidableEq, Repr

/-- A highlight timestamp pair. -/
structure Timestamp where
  start : Int
  «end» : Int
deriving DecidableEq, Repr

/-- A raw auto-highlight entry; `timestamps` may be absent (`highlight.timestamps || []`). -/
structure RawHighlight where
  text : String
  count : Int
  rank : Int
  timestamps : Option (List Timestamp)
deriving DecidableEq, Repr

/-- A normalized highlight. -/
structure Highlight where
  text : String
  count : Int
  rank : Int
  timestamps : List Timestamp
deriving DecidableEq, Repr

/-- The `auto_highlights_result` object; its `results` field may or may not be an array. -/
structure AutoHighlightsResult where
  results : Option (List RawHighlight)
deriving DecidableEq, Repr

/-- The possible shapes of the raw `speaker_labels` field: a flat array, or an
object possibly carrying a nested `segments` array. -/
inductive SpeakerLabelsVal
  | arr (segs : List RawSpeakerSegment)
  | obj (segments : Option (List RawSpeakerSegment))
deriving DecidableEq, Repr

/-- A raw provider job record, with every analysis field possibly absent. -/
structure RawTranscription where
  id : String
  status : String
  text : Option String := none
  error : Option String := none
  utterances : Option (List RawSpeakerSegment) := none
  speaker_labels : Option SpeakerLabelsVal := none
  sentiment_analysis_results : Option (List RawSentimentEntry) := none
  summary : Option String := none
  pii_redaction_results : Option (List RawRedaction) := none
  auto_highlights_result : Option AutoHighlightsResult := none
deriving DecidableEq, Repr

/-- The normalized TranscriptionResult produced by mapTranscriptionToResult. -/
structure TranscriptionResult where
  id : String
  status : String
  text : Option String
  error : Option String
  speakers : List SpeakerSegment
  sentiment : Option SentimentAnalysis
  summary : Option String
  piiRedactions : List Redaction
  autoHighlights : List Highlight
deriving DecidableEq, Repr

/- ### File validation (file utilities layer) -/

/-- An uploaded file as seen by the validators: name, MIME type, size in bytes. -/
structure FileRec where
  name : String
  type : String
  size : Nat
deriving DecidableEq, Repr

/-- Result record of the UI-facing validator. -/
structure FileValidationResult where
  isValid : Bool
  error : Option String := none
  warnings : Option (List String) := none
deriving DecidableEq, Repr

/-- SUPPORTED_AUDIO_TYPES from the file utilities. -/
def SUPPORTED_AUDIO_TYPES : List String :=
  ["audio/mp3", "audio/wav", "audio/m4a", "audio/mpeg", "audio/mp4"]

/-- MAX_FILE_SIZE from the file utilities: 100 MiB. -/
def MAX_FILE_SIZE : Nat := 100 * 1024 * 1024

/-- The UI-facing validateAudioFile from the file utilities. The input is an
Option to cover the defensive `if (!file)` check. -/
def validateAudioFile (file : Option FileRec) : FileValidationResult :=
  match file with
  | none => { isValid := false, error := some ("No file provided") }
  | some f =>
    if f.type ∈ SUPPORTED_AUDIO_TYPES then
      if f.size > MAX_FILE_SIZE then
        { isValid := false
          error := some ("File too large. Maximum size is 100MB") }
      else
        let warnings : List String := if f.name = "" then [("File has no name")] else []
        if f.size = 0 then
          { isValid := false, error := some ("File is empty") }
        else
          { isValid := true
            warnings := if warnings.isEmpty then none else some warnings }
    else
      { isValid := false
        error := some ("Unsupported file type: " ++ f.type ++ ". Supported types: "
          ++ String.intercalate (", ") SUPPORTED_AUDIO_TYPES) }

namespace AssemblyAIService

/-- The supported type list local to AssemblyAIService.validateAudioFile
(note: it has no audio/mp4 entry, unlike SUPPORTED_AUDIO_TYPES). -/
def supportedTypes : List String :=
  ["audio/mp3", "audio/wav", "audio/m4a", "audio/mpeg"]

/-- AssemblyAIService.validateAudioFile: returns the thrown error message, or
none when the file is accepted. -/
def validateAudioFile (file : Option FileRec) : Option String :=
  match file with
  | none => some ("No file provided")
  | some f =>
    if f.type ∈ supportedTypes then
      if f.size > 100 * 1024 * 1024 then
        some ("File too large. Maximum size is 100MB")
      else if f.size = 0 then
        some ("File is empty")
      else
        none
    else
      some ("Unsupported file type: " ++ f.type)

/- ### Result normalizer -/

/-- Conversion of one raw speaker entry (all three shapes use the same fields). -/
def toSpeakerSegment (u : RawSpeakerSegment) : SpeakerSegment :=
  { speaker := u.speaker, text := u.text, start := u.start
    «end» := u.«end», confidence := u.confidence }

/-- Conversion of one raw sentiment entry. -/
def toSentimentSegment (s : RawSentimentEntry) : SentimentSegment :=
  { text := s.text, sentiment := s.sentiment, confidence := s.confidence
    start := s.start, «end» := s.«end» }

/-- The reduce in mapTranscriptionToResult building `sentimentCounts`: a map
from lowercased sentiment label to occurrence count, skipping falsy labels
(`if (segment.sentiment && typeof segment.sentiment === "string")`; in this
model every sentiment is a string, so only the empty string is skipped). -/
def sentimentCounts (segs : List SentimentSegment) : String → Nat :=
  segs.foldl
    (fun acc seg =>
      if seg.sentiment ≠ "" then
        fun key => if key = toLowerCase seg.sentiment then acc key + 1 else acc key
      else acc)
    (fun _ => 0)

/-- AssemblyAIService.mapTranscriptionToResult. The `overall` field is
initialized to NEUTRAL and overwritten only when the total count is positive,
exactly as in the source. -/
def mapTranscriptionToResult (t : RawTranscription) : TranscriptionResult :=
  let speakers : List SpeakerSegment :=
    match t.utterances with
    | some us => us.map toSpeakerSegment
    | none =>
      match t.speaker_labels with
      | some (.arr segs) => segs.map toSpeakerSegment
      | some (.obj osegs) =>
        match osegs with
        | some segs => segs.map toSpeakerSegment
        | none => []
      | none => []
  let sentiment : Option SentimentAnalysis :=
    match t.sentiment_analysis_results with
    | some entries =>
      let segments := entries.map toSentimentSegment
      let counts := sentimentCounts segments
      let scores : SentimentScores :=
        { positive := counts ("positive")
          negative := counts ("negative")
          neutral := counts ("neutral") }
      let total := scores.positive + scores.negative + scores.neutral
      let overall : String :=
        if total > 0 then
          if scores.positive > scores.negative then ("POSITIVE")
          else if scores.negative > scores.positive then ("NEGATIVE")
          else ("NEUTRAL")
        else ("NEUTRAL")
      some { overall := overall, scores := scores, segments := segments }
    | none => none
  let piiRedactions : List Redaction :=
    match t.pii_redaction_results with
    | some rs => rs.map (fun r =>
        { text := r.text, type := r.type, confidence := r.confidence
          start := r.start, «end» := r.«end» })
    | none => []
  let autoHighlights : List Highlight :=
    match t.auto_highlights_result with
    | some ah =>
      match ah.results with
      | some hs => hs.map (fun h =>
          { text := h.text, count := h.count, rank := h.rank
            timestamps := h.timestamps.getD [] })
      | none => []
    | none => []
  { id := t.id
    status := t.status
    text := t.text
    error := t.error
    speakers := speakers
    sentiment := sentiment
    summary := match t.summary with
      | some s => if s = "" then none else some s
      | none => none
    piiRedactions := piiRedactions
    autoHighlights := autoHighlights }

/-- AssemblyAIService.calculateProgress: fixed percentage per status. -/
def calculateProgress (r : TranscriptionResult) : Nat :=
  if r.status = "completed" then 100
  else if r.status = "error" then 0
  else if r.status = "queued" then 10
  else if r.status = "processing" then 50
  else 0

/- ### Error mapping -/

/-- The trailing branches of handleError, reached when there is no truthy
response status: `else if (error?.message) message = context + ": " + message`. -/
def handleNoStatus (e : JSError) (context : String) : String :=
  match e.message with
  | some m => if m = "" then context else context ++ ": " ++ m
  | none => context

/-- AssemblyAIService.handleError: maps a caught error and a context string to
the surfaced message. A status of 0 is falsy in JS, so it falls through to the
message branch. -/
def handleError (e : JSError) (context : String) : String :=
  match e.status with
  | some s =>
    if s = 0 then handleNoStatus e context
    else if s = 401 then ("Invalid API key. Please check your AssemblyAI credentials.")
    else if s = 403 then ("Access denied. Please check your API permissions.")
    else if s = 429 then ("Rate limit exceeded. Please try again later.")
    else if s = 400 then ("Invalid request. Please check your audio file format.")
    else if s = 500 then ("AssemblyAI service error. Please try again later.")
    else context ++ ": " ++ jsMsg e
  | none => handleNoStatus e context

/-- The `config.maxRetries || 3` and `config.retryDelay || 1000` defaulting in
the constructor (JS falsy-or: 0 also takes the default). -/
def orDefaultNat (v : Option Nat) (d : Nat) : Nat :=
  match v with
  | some n => if n = 0 then d else n
  | none => d

/-- Constructor field `this.maxRetries`. -/
def maxRetriesOf (configMaxRetries : Option Nat) : Nat := orDefaultNat configMaxRetries 3

/-- Constructor field `this.retryDelay`. -/
def retryDelayOf (configRetryDelay : Option Nat) : Nat := orDefaultNat configRetryDelay 1000

end AssemblyAIService

/- ### Effect model: outcomes, events, environment -/

/-- Decidable equality for Except, needed to evaluate runs on closed inputs. -/
instance instDecEqExcept {ε α : Type} [DecidableEq ε] [DecidableEq α] :
    DecidableEq (Except ε α) := fun a b =>
  match a, b with
  | .ok x, .ok y =>
    if h : x = y then .isTrue (by rw [h]) else .isFalse (fun hc => h (Except.ok.inj hc))
  | .error x, .error y =>
    if h : x = y then .isTrue (by rw [h]) else .isFalse (fun hc => h (Except.error.inj hc))
  | .ok _, .error _ => .isFalse (fun hc => Except.noConfusion hc)
  | .error _, .ok _ => .isFalse (fun hc => Except.noConfusion hc)

/-- Outcome of one remote call: a value, or a thrown JS error. -/
inductive Outcome (T : Type)
  | ok (t : T)
  | err (e : JSError)
deriving DecidableEq, Repr

/-- One observable event of a run, in order of occurrence. -/
inductive Ev
  | uploadCall
  | createCall
  | fetchCall
  | sleep (ms : Nat)
  | pollCb (status : String) (pct : Nat)
  | cb (status : String) (pct : Nat) (msg : String)
deriving DecidableEq, Repr

/-- The remote provider as seen by one orchestration run: the outcome of the
upload call, of the a-th job-creation attempt, and of the n-th status fetch
(counted globally across poll iterations and in-iteration retries). -/
structure Env where
  upload : Outcome String
  create : Nat → Outcome String
  fetches : Nat → Outcome RawTranscription

namespace AssemblyAIService

/-- Result of a retryOperation run: the returned value or thrown message, the
event trace (one callEv per attempt, one sleep per backoff wait), and the
number of attempts performed. -/
structure RetryRun (T : Type) where
  res : Except String T
  evs : List Ev
  calls : Nat
deriving Repr, DecidableEq

/-- The body of AssemblyAIService.retryOperation, embedded structurally: `fuel`
is the number of attempts still allowed (maxRetries - attempt + 1), `attempt`
the 1-based attempt counter used for the backoff exponent, `lastError` the last
caught error. `fuel = 0` with a failure corresponds to the
`attempt === maxRetries` break followed by the final throw. -/
def retryGo (op : Nat → Outcome T) (callEv : Ev) (errorMessage : String)
    (retryDelay : Nat) : Nat → Nat → Option JSError → RetryRun T
  | 0, _, lastError =>
    { res := .error (errorMessage ++ ": " ++
        (match lastError with
         | some e => jsMsg e
         | none => ("Unknown error")))
      evs := [], calls := 0 }
  | fuel + 1, attempt, _ =>
    match op attempt with
    | .ok t => { res := .ok t, evs := [callEv], calls := 1 }
    | .err e =>
      if fuel = 0 then
        { res := .error (errorMessage ++ ": " ++ jsMsg e), evs := [callEv], calls := 1 }
      else
        let d := retryDelay * 2 ^ (attempt - 1)
        let rest := retryGo op callEv errorMessage retryDelay fuel (attempt + 1) (some e)
        { res := rest.res, evs := callEv :: Ev.sleep d :: rest.evs, calls := rest.calls + 1 }

/-- AssemblyAIService.retryOperation with the instance fields maxRetries and
retryDelay made explicit. -/
def retryOperation (op : Nat → Outcome T) (callEv : Ev) (errorMessage : String)
    (maxRetries retryDelay : Nat) : RetryRun T :=
  retryGo op callEv errorMessage retryDelay maxRetries 1 none

/-- Result of one getTranscriptionStatus call inside a run: the normalized
result or thrown message, the index of the next unconsumed fetch outcome, and
the events produced. -/
structure StatusRun where
  res : Except String TranscriptionResult
  next : Nat
  evs : List Ev
deriving Repr, DecidableEq

/-- AssemblyAIService.getTranscriptionStatus starting at global fetch index
`i`: the wrapped fetch consumes one provider outcome per attempt; on failure
the retry error is re-wrapped by handleError with the status context. -/
def getTranscriptionStatusRun (env : Env) (maxRetries retryDelay : Nat) (i : Nat) :
    StatusRun :=
  let r := retryOperation (fun a => env.fetches (i + a - 1)) Ev.fetchCall
    ("Failed to get transcription status") maxRetries retryDelay
  match r.res with
  | .ok raw =>
    { res := .ok (mapTranscriptionToResult raw), next := i + r.calls, evs := r.evs }
  | .error m =>
    { res := .error (handleError { status := none, message := some m }
        ("Failed to get transcription status"))
      next := i + r.calls, evs := r.evs }

/-- The thrown timeout message of pollTranscriptionStatus. -/
def timeoutMessage : String := "Transcription timeout - exceeded maximum polling attempts"

/-- The polling context string. -/
def pollContext : String := "Failed to poll transcription status"

/-- The body of AssemblyAIService.pollTranscriptionStatus. `remaining` is
maxAttempts - attempts (the loop guard `attempts < maxAttempts` is
`remaining > 0`; both the non-terminal branch and the catch branch increment
`attempts`, so the pair moves in lockstep). `attempts` is still carried
explicitly because the catch compares it with maxRetries. The status-error
throw happens inside the try, so it is handled by the same catch as a fetch
failure, exactly as in the source. -/
def pollGo (env : Env) (maxRetries retryDelay : Nat) :
    Nat → Nat → Nat → Except String TranscriptionResult × List Ev
  | 0, _, _ => (.error timeoutMessage, [])
  | remaining + 1, attempts, i =>
    let g := getTranscriptionStatusRun env maxRetries retryDelay i
    match g.res with
    | .ok result =>
      let pe := Ev.pollCb result.status (calculateProgress result)
      if result.status = "completed" then
        (.ok result, g.evs ++ [pe])
      else if result.status = "error" then
        -- throw new Error(result.error || "Transcription failed"), caught below
        let e : JSError := { status := none, message := some (jsOrOpt result.error ("Transcription failed")) }
        if attempts ≥ maxRetries then
          (.error (handleError e pollContext), g.evs ++ [pe])
        else
          let rest := pollGo env maxRetries retryDelay remaining (attempts + 1) g.next
          (rest.1, g.evs ++ [pe] ++ [Ev.sleep retryDelay] ++ rest.2)
      else
        let rest := pollGo env maxRetries retryDelay remaining (attempts + 1) g.next
        (rest.1, g.evs ++ [pe] ++ [Ev.sleep 5000] ++ rest.2)
    | .error m =>
      -- the catch clause, entered with the error thrown by getTranscriptionStatus
      let e : JSError := { status := none, message := some m }
      if attempts ≥ maxRetries then
        (.error (handleError e pollContext), g.evs)
      else
        let rest := pollGo env maxRetries retryDelay remaining (attempts + 1) g.next
        (rest.1, g.evs ++ [Ev.sleep retryDelay] ++ rest.2)

/-- AssemblyAIService.pollTranscriptionStatus: maxAttempts = 60, starting with
attempts = 0 and the first provider fetch outcome. -/
def pollTranscriptionStatus (env : Env) (maxRetries retryDelay : Nat) :
    Except String TranscriptionResult × List Ev :=
  pollGo env maxRetries retryDelay 60 0 0

/-- The context string of uploadAndTranscribe. -/
def uploadContext : String := "Failed to upload and transcribe audio file"

/-- AssemblyAIService.uploadAndTranscribe: validate, upload, submit with retry;
any thrown error is wrapped by handleError with the upload context. Returns the
transcription id and the event trace. -/
def uploadAndTranscribe (env : Env) (maxRetries retryDelay : Nat)
    (file : Option FileRec) : Except String String × List Ev :=
  match validateAudioFile file with
  | some e =>
    (.error (handleError { status := none, message := some e } uploadContext), [])
  | none =>
    match env.upload with
    | .err e => (.error (handleError e uploadContext), [Ev.uploadCall])
    | .ok _audioUrl =>
      let r := retryOperation env.create Ev.createCall
        ("Failed to submit transcription request") maxRetries retryDelay
      match r.res with
      | .ok id => (.ok id, Ev.uploadCall :: r.evs)
      | .error m =>
        (.error (handleError { status := none, message := some m } uploadContext),
          Ev.uploadCall :: r.evs)

end AssemblyAIService

namespace TranscriptionService

open AssemblyAIService

/-- The message chosen by the poll callback switch in startTranscription. -/
def pollMessageFor (status : String) : String :=
  if status = "queued" then ("Transcription queued, waiting to start...")
  else if status = "processing" then ("Transcribing audio with speaker labels and sentiment analysis...")
  else if status = "completed" then ("Transcription completed successfully!")
  else if status = "error" then ("Transcription failed")
  else ("Processing transcription...")

/-- `20 + (progress || 0) * 0.8` of the poll callback. calculateProgress only
produces 0, 10, 50 or 100, and for those values the JS double computation is
exact and agrees with this Nat formula (20, 28, 60, 100). -/
def adjustedProgress (p : Nat) : Nat := 20 + p * 4 / 5

/-- The progress callback closure passed to pollTranscriptionStatus: each poll
callback invocation immediately becomes a UI callback with scaled percentage
and a status message. Other events pass through unchanged. -/
def liftEv : Ev → Ev
  | .pollCb s p => .cb s (adjustedProgress p) (pollMessageFor s)
  | e => e

/-- TranscriptionService.startTranscription: upload callback, upload+submit,
processing callback, poll, result validation, terminal callback. The outer
catch reports the error message via a final error callback and rethrows. -/
def startTranscription (env : Env) (maxRetries retryDelay : Nat)
    (file : Option FileRec) : Except String TranscriptionResult × List Ev :=
  let ev0 := Ev.cb ("uploading") 10 ("Uploading file to AssemblyAI...")
  match uploadAndTranscribe env maxRetries retryDelay file with
  | (.error m, evs) => (.error m, ev0 :: evs ++ [Ev.cb ("error") 0 m])
  | (.ok _id, evs) =>
    let ev1 := Ev.cb ("processing") 20 ("Transcription started, processing audio...")
    let poll := pollTranscriptionStatus env maxRetries retryDelay
    let pevs := poll.2.map liftEv
    match poll.1 with
    | .error m =>
      (.error m, ev0 :: evs ++ ev1 :: pevs ++ [Ev.cb ("error") 0 m])
    | .ok result =>
      if result.status = "error" then
        let m := jsOrOpt result.error ("Transcription failed")
        (.error m, ev0 :: evs ++ ev1 :: pevs ++ [Ev.cb ("error") 0 m])
      else if jsTruthyOpt result.text = false then
        let m := "Transcription completed but no text was generated"
        (.error m, ev0 :: evs ++ ev1 :: pevs ++ [Ev.cb ("error") 0 m])
      else
        (.ok result,
          ev0 :: evs ++ ev1 :: pevs
            ++ [Ev.cb ("completed") 100 ("Transcription completed successfully!")])

end TranscriptionService

/-- The (status, percentage, message) triple of a UI callback event. -/
def cbOf : Ev → Option (String × Nat × String)
  | .cb s p m => some (s, p, m)
  | _ => none

/-- The UI-visible callback trace of a run: the (status, percentage, message)
triples of the cb events, in order. -/
def cbs (l : List Ev) : List (String × Nat × String) :=
  l.filterMap cbOf

/-- The number of provider fetch calls in a trace. -/
def fetchCount (l : List Ev) : Nat :=
  (l.filter (fun e => e = Ev.fetchCall)).length

/- ### Helper lemmas -/

namespace AssemblyAIService

lemma mapT_status (t : RawTranscription) : (mapTranscriptionToResult t).status = t.status := rfl

lemma mapT_error (t : RawTranscription) : (mapTranscriptionToResult t).error = t.error := rfl

lemma mapT_text (t : RawTranscription) : (mapTranscriptionToResult t).text = t.text := rfl

lemma jsOrOpt_ne_empty (o : Option String) (d : String) (hd : d ≠ "") : jsOrOpt o d ≠ "" := by
  unfold jsOrOpt
  match o with
  | none => exact hd
  | some s =>
    by_cases hs : s = ""
    · simp [hs, hd]
    · simp [hs]

lemma handleError_no_status (m context : String) (hm : m ≠ "") :
    handleError { status := none, message := some m } context = context ++ ": " ++ m := by
  simp [handleError, handleNoStatus, hm]

/-- The messages thrown by AssemblyAIService.validateAudioFile are never empty. -/
lemma validateAudioFile_msg_ne_empty (file : Option FileRec) (e : String)
    (h : validateAudioFile file = some e) : e ≠ "" := by
  unfold validateAudioFile at h
  match file with
  | none =>
    simp only [Option.some.injEq] at h
    subst h; decide
  | some f =>
    by_cases ht : f.type ∈ supportedTypes
    · simp only [ht, if_pos] at h
      split_ifs at h <;> simp_all <;> (subst h; decide)
    · simp only [ht, if_neg, not_false_eq_true, Option.some.injEq] at h
      subst h
      intro hcontra
      have := congrArg String.length hcontra
      simp only [String.length_append] at this
      rw [show ("Unsupported file type: ").length = 23 from rfl,
        show ("" : String).length = 0 from rfl] at this
      omega

lemma sentimentCounts_aux (key : String) (hk : key ≠ "") :
    ∀ (segs : List SentimentSegment) (acc : String → Nat),
      List.foldl
        (fun acc seg =>
          if seg.sentiment ≠ "" then
            fun k2 => if k2 = toLowerCase seg.sentiment then acc k2 + 1 else acc k2
          else acc) acc segs key
        = acc key + segs.countP (fun s => toLowerCase s.sentiment == key) := by
  intro segs
  induction segs with
  | nil => intro acc; simp
  | cons s rest ih =>
    intro acc
    simp only [List.foldl_cons, List.countP_cons]
    by_cases hs : s.sentiment = ""
    · have hlow : toLowerCase s.sentiment = "" := by rw [hs]; rfl
      have hbeq : (toLowerCase s.sentiment == key) = false := by
        rw [hlow]
        exact beq_eq_false_iff_ne.mpr (Ne.symm hk)
      have hne : ¬ (s.sentiment ≠ "") := by simp [hs]
      rw [if_neg hne, ih, hbeq]
      simp
    · rw [if_pos hs, ih]
      by_cases hkey : key = toLowerCase s.sentiment
      · have hbeq : (toLowerCase s.sentiment == key) = true := beq_iff_eq.mpr hkey.symm
        simp [hkey, hbeq]
        omega
      · have hbeq : (toLowerCase s.sentiment == key) = false :=
          beq_eq_false_iff_ne.mpr (fun h2 => hkey h2.symm)
        simp [hkey, hbeq]

/-- The reduce-then-extract in mapTranscriptionToResult counts, for a
non-empty key, exactly the segments whose lowercased label equals the key. -/
lemma sentimentCounts_eq_countP (segs : List SentimentSegment) (key : String) (hk : key ≠ "") :
    AssemblyAIService.sentimentCounts segs key
      = segs.countP (fun s => toLowerCase s.sentiment == key) := by
  unfold AssemblyAIService.sentimentCounts
  rw [sentimentCounts_aux key hk segs]
  simp

end AssemblyAIService

/- ### Claim theorems -/

/-- C2: whenever the raw record carries a sentiment-analysis array, the mapped
result counts the lowercase labels among the entries into
scores.positive/negative/neutral and derives overall as POSITIVE on strict
positive majority, NEGATIVE on strict negative majority, and NEUTRAL otherwise
(ties, including the all-zero case, fall to the final else). -/
theorem c2_sentiment_scores_and_overall (t : RawTranscription)
    (entries : List RawSentimentEntry)
    (h : t.sentiment_analysis_results = some entries) :
    ∃ s, (AssemblyAIService.mapTranscriptionToResult t).sentiment = some s ∧
      s.scores.positive = entries.countP (fun e => toLowerCase e.sentiment == ("positive")) ∧
      s.scores.negative = entries.countP (fun e => toLowerCase e.sentiment == ("negative")) ∧
      s.scores.neutral = entries.countP (fun e => toLowerCase e.sentiment == ("neutral")) ∧
      s.overall =
        (if s.scores.positive > s.scores.negative then ("POSITIVE")
         else if s.scores.negative > s.scores.positive then ("NEGATIVE")
         else ("NEUTRAL")) ∧
      s.segments = entries.map AssemblyAIService.toSentimentSegment := by
  have hcount : ∀ key : String, key ≠ "" →
      AssemblyAIService.sentimentCounts (entries.map AssemblyAIService.toSentimentSegment) key
        = entries.countP (fun e => toLowerCase e.sentiment == key) := by
    intro key hk
    rw [AssemblyAIService.sentimentCounts_eq_countP _ key hk, List.countP_map]
    rfl
  obtain ⟨tid, tstatus, ttext, terr, tutt, tsl, tsar, tsum, tpii, tah⟩ := t
  simp only at h
  subst h
  refine ⟨_, rfl, ?_, ?_, ?_, ?_, rfl⟩
  · exact hcount ("positive") (by decide)
  · exact hcount ("negative") (by decide)
  · exact hcount ("neutral") (by decide)
  · show (if AssemblyAIService.sentimentCounts
          (entries.map AssemblyAIService.toSentimentSegment) ("positive")
        + AssemblyAIService.sentimentCounts
          (entries.map AssemblyAIService.toSentimentSegment) ("negative")
        + AssemblyAIService.sentimentCounts
          (entries.map AssemblyAIService.toSentimentSegment) ("neutral") > 0 then
        if AssemblyAIService.sentimentCounts
            (entries.map AssemblyAIService.toSentimentSegment) ("positive")
          > AssemblyAIService.sentimentCounts
            (entries.map AssemblyAIService.toSentimentSegment) ("negative")
        then ("POSITIVE")
        else if AssemblyAIService.sentimentCounts
            (entries.map AssemblyAIService.toSentimentSegment) ("negative")
          > AssemblyAIService.sentimentCounts
            (entries.map AssemblyAIService.toSentimentSegment) ("positive")
        then ("NEGATIVE")
        else ("NEUTRAL")
      else ("NEUTRAL")) =
      (if AssemblyAIService.sentimentCounts
          (entries.map AssemblyAIService.toSentimentSegment) ("positive")
        > AssemblyAIService.sentimentCounts
          (entries.map AssemblyAIService.toSentimentSegment) ("negative")
      then ("POSITIVE")
      else if AssemblyAIService.sentimentCounts
          (entries.map AssemblyAIService.toSentimentSegment) ("negative")
        > AssemblyAIService.sentimentCounts
          (entries.map AssemblyAIService.toSentimentSegment) ("positive")
      then ("NEGATIVE")
      else ("NEUTRAL"))
    generalize AssemblyAIService.sentimentCounts
      (entries.map AssemblyAIService.toSentimentSegment) ("positive") = p
    generalize AssemblyAIService.sentimentCounts
      (entries.map AssemblyAIService.toSentimentSegment) ("negative") = n
    generalize AssemblyAIService.sentimentCounts
      (entries.map AssemblyAIService.toSentimentSegment) ("neutral") = u
    by_cases htot : p + n + u > 0
    · rw [if_pos htot]
    · have hp0 : p = 0 := by omega
      have hn0 : n = 0 := by omega
      simp [htot, hp0, hn0]

/-- C2 witness: scores and overall at a concrete record with labels
POSITIVE, POSITIVE, NEGATIVE, NEUTRAL. -/
theorem c2_witness :
    ∃ s,
      (AssemblyAIService.mapTranscriptionToResult
        { id := "t", status := "completed",
          sentiment_analysis_results := some
            [{ text := "a", sentiment := "POSITIVE", confidence := 1, start := 0, «end» := 1 },
             { text := "b", sentiment := "POSITIVE", confidence := 1, start := 1, «end» := 2 },
             { text := "c", sentiment := "NEGATIVE", confidence := 1, start := 2, «end» := 3 },
             { text := "d", sentiment := "NEUTRAL", confidence := 1, start := 3, «end» := 4 }] }).sentiment
        = some s ∧
      s.scores.positive = 2 ∧ s.scores.negative = 1 ∧ s.scores.neutral = 1 ∧
      s.overall = "POSITIVE" := by
  obtain ⟨s, hsome2, hpos, hneg, hneu, hov, -⟩ :=
    c2_sentiment_scores_and_overall
      { id := "t", status := "completed",
        sentiment_analysis_results := some
          [{ text := "a", sentiment := "POSITIVE", confidence := 1, start := 0, «end» := 1 },
           { text := "b", sentiment := "POSITIVE", confidence := 1, start := 1, «end» := 2 },
           { text := "c", sentiment := "NEGATIVE", confidence := 1, start := 2, «end» := 3 },
           { text := "d", sentiment := "NEUTRAL", confidence := 1, start := 3, «end» := 4 }] }
      _ rfl
  refine ⟨s, hsome2, ?_, ?_, ?_, ?_⟩
  · rw [hpos]; decide
  · rw [hneg]; decide
  · rw [hneu]; decide
  · rw [hov, hpos, hneg]; decide

/-- C7: the normalizer resolves speakers from utterances first, then from a
flat speaker-labels array, then from a nested segments array, and falls back
to the empty list; absent sentiment data yields none (not an empty object);
absent redaction and highlight arrays yield empty lists, present ones map
one to one. -/
theorem c7_normalizer_shape_tolerance (t : RawTranscription) :
    (∀ us, t.utterances = some us →
      (AssemblyAIService.mapTranscriptionToResult t).speakers
        = us.map AssemblyAIService.toSpeakerSegment) ∧
    (∀ segs, t.utterances = none → t.speaker_labels = some (.arr segs) →
      (AssemblyAIService.mapTranscriptionToResult t).speakers
        = segs.map AssemblyAIService.toSpeakerSegment) ∧
    (∀ segs, t.utterances = none → t.speaker_labels = some (.obj (some segs)) →
      (AssemblyAIService.mapTranscriptionToResult t).speakers
        = segs.map AssemblyAIService.toSpeakerSegment) ∧
    (t.utterances = none →
      (t.speaker_labels = none ∨ t.speaker_labels = some (.obj none)) →
      (AssemblyAIService.mapTranscriptionToResult t).speakers = []) ∧
    (t.sentiment_analysis_results = none →
      (AssemblyAIService.mapTranscriptionToResult t).sentiment = none) ∧
    (t.pii_redaction_results = none →
      (AssemblyAIService.mapTranscriptionToResult t).piiRedactions = []) ∧
    (∀ rs, t.pii_redaction_results = some rs →
      (AssemblyAIService.mapTranscriptionToResult t).piiRedactions
        = rs.map (fun r =>
            { text := r.text, type := r.type, confidence := r.confidence
              start := r.start, «end» := r.«end» })) ∧
    ((t.auto_highlights_result = none ∨
        (∃ ah, t.auto_highlights_result = some ah ∧ ah.results = none)) →
      (AssemblyAIService.mapTranscriptionToResult t).autoHighlights = []) ∧
    (∀ ah hs, t.auto_highlights_result = some ah → ah.results = some hs →
      (AssemblyAIService.mapTranscriptionToResult t).autoHighlights
        = hs.map (fun h =>
            { text := h.text, count := h.count, rank := h.rank
              timestamps := h.timestamps.getD [] })) := by
  refine ⟨?_, ?_, ?_, ?_, ?_, ?_, ?_, ?_, ?_⟩
  · intro us h
    simp [AssemblyAIService.mapTranscriptionToResult, h]
  · intro segs h1 h2
    simp [AssemblyAIService.mapTranscriptionToResult, h1, h2]
  · intro segs h1 h2
    simp [AssemblyAIService.mapTranscriptionToResult, h1, h2]
  · rintro h1 (h2 | h2) <;> simp [AssemblyAIService.mapTranscriptionToResult, h1, h2]
  · intro h
    simp [AssemblyAIService.mapTranscriptionToResult, h]
  · intro h
    simp [AssemblyAIService.mapTranscriptionToResult, h]
  · intro rs h
    simp [AssemblyAIService.mapTranscriptionToResult, h]
  · rintro (h | ⟨ah, h1, h2⟩) <;>
      simp [AssemblyAIService.mapTranscriptionToResult, *]
  · intro ah hs h1 h2
    simp [AssemblyAIService.mapTranscriptionToResult, h1, h2]

/-- One-step unfolding of retryGo at positive fuel. -/
lemma retryGo_succ {T : Type} (op : Nat → Outcome T) (callEv : Ev) (msg : String)
    (rd fuel att : Nat) (le : Option JSError) :
    AssemblyAIService.retryGo op callEv msg rd (fuel + 1) att le =
      (match op att with
       | .ok t => { res := .ok t, evs := [callEv], calls := 1 }
       | .err e =>
         if fuel = 0 then
           { res := .error (msg ++ ": " ++ jsMsg e), evs := [callEv], calls := 1 }
         else
           { res := (AssemblyAIService.retryGo op callEv msg rd fuel (att + 1) (some e)).res
             evs := callEv :: Ev.sleep (rd * 2 ^ (att - 1))
               :: (AssemblyAIService.retryGo op callEv msg rd fuel (att + 1) (some e)).evs
             calls := (AssemblyAIService.retryGo op callEv msg rd fuel (att + 1) (some e)).calls + 1 }) := rfl

lemma retryGo_calls_le {T : Type} (op : Nat → Outcome T) (callEv : Ev) (msg : String)
    (rd : Nat) : ∀ (fuel att : Nat) (le : Option JSError),
    (AssemblyAIService.retryGo op callEv msg rd fuel att le).calls ≤ fuel := by
  intro fuel
  induction fuel with
  | zero => intro att le; simp [AssemblyAIService.retryGo]
  | succ n ih =>
    intro att le
    rw [retryGo_succ]
    cases hop : op att with
    | ok t => simp
    | err e =>
      dsimp only
      by_cases hn : n = 0
      · simp [hn]
      · rw [if_neg hn]
        have := ih (att + 1) (some e)
        dsimp only
        omega

lemma retryGo_allfail {T : Type} (op : Nat → Outcome T) (callEv : Ev) (msg : String)
    (rd : Nat) (E : Nat → JSError) (hop : ∀ a, op a = .err (E a)) :
    ∀ (fuel att : Nat) (le : Option JSError), 1 ≤ fuel →
    AssemblyAIService.retryGo op callEv msg rd fuel att le =
      { res := .error (msg ++ ": " ++ jsMsg (E (att + fuel - 1)))
        evs := ((List.range' att (fuel - 1)).map
            (fun a => [callEv, Ev.sleep (rd * 2 ^ (a - 1))])).flatten ++ [callEv]
        calls := fuel } := by
  intro fuel
  induction fuel with
  | zero => intro att le h1; omega
  | succ n ih =>
    intro att le h1
    rw [retryGo_succ, hop att]
    dsimp only
    by_cases hn : n = 0
    · subst hn
      simp
    · rw [if_neg hn]
      obtain ⟨m, rfl⟩ : ∃ m, n = m + 1 := ⟨n - 1, by omega⟩
      rw [ih (att + 1) (some (E att)) (by omega)]
      have harith : att + 1 + (m + 1) - 1 = att + (m + 1 + 1) - 1 := by omega
      have hr : List.range' att (m + 1) = att :: List.range' (att + 1) m :=
        List.range'_succ att m 1
      simp [harith, hr]

/-- C3: retryOperation performs at most maxRetries attempts; when every
attempt fails, the trace shows each failure before the final attempt followed
by a wait of retryDelay * 2 ^ (attempt - 1), and the raised error embeds the
context string and the last underlying failure message; the constructor
defaults are maxRetries = 3 and retryDelay = 1000 ms. -/
theorem c3_retry_policy (mr rd : Nat) (hmr : 1 ≤ mr) (msg : String) :
    (∀ (T : Type) (op : Nat → Outcome T) (callEv : Ev),
      (AssemblyAIService.retryOperation op callEv msg mr rd).calls ≤ mr) ∧
    (∀ (T : Type) (op : Nat → Outcome T) (callEv : Ev) (E : Nat → JSError),
      (∀ a, op a = .err (E a)) →
      AssemblyAIService.retryOperation op callEv msg mr rd =
        { res := .error (msg ++ ": " ++ jsMsg (E mr))
          evs := ((List.range' 1 (mr - 1)).map
              (fun a => [callEv, Ev.sleep (rd * 2 ^ (a - 1))])).flatten ++ [callEv]
          calls := mr }) ∧
    AssemblyAIService.maxRetriesOf none = 3 ∧
    AssemblyAIService.retryDelayOf none = 1000 := by
  refine ⟨?_, ?_, rfl, rfl⟩
  · intro T op callEv
    exact retryGo_calls_le op callEv msg rd mr 1 none
  · intro T op callEv E hop
    have h := retryGo_allfail op callEv msg rd E hop mr 1 none hmr
    rw [AssemblyAIService.retryOperation, h]
    have : 1 + mr - 1 = mr := by omega
    rw [this]

/-- C3 witness: three failing attempts at defaults maxRetries = 3 and
retryDelay = 1000 produce waits of 1000 and 2000 ms and the combined error. -/
theorem c3_witness :
    (1 ≤ 3) ∧
    AssemblyAIService.retryOperation
      (fun _ => (Outcome.err { status := none, message := some ("upload failed") } : Outcome String))
      Ev.createCall ("Failed to submit transcription request") 3 1000 =
      { res := .error ("Failed to submit transcription request: upload failed")
        evs := [Ev.createCall, Ev.sleep 1000, Ev.createCall, Ev.sleep 2000, Ev.createCall]
        calls := 3 } := by
  refine ⟨by decide, ?_⟩
  have h := (c3_retry_policy 3 1000 (by decide) ("Failed to submit transcription request")).2.1
    String (fun _ => Outcome.err { status := none, message := some ("upload failed") })
    Ev.createCall (fun _ => { status := none, message := some ("upload failed") })
    (fun _ => rfl)
  rw [h]
  rfl

/-- A successful fetch at index i consumes exactly one provider outcome. -/
lemma getStatusRun_ok (env : Env) (mr rd i : Nat) (hmr : 1 ≤ mr)
    (raw : RawTranscription) (h : env.fetches i = .ok raw) :
    AssemblyAIService.getTranscriptionStatusRun env mr rd i =
      { res := .ok (AssemblyAIService.mapTranscriptionToResult raw)
        next := i + 1, evs := [Ev.fetchCall] } := by
  obtain ⟨m, rfl⟩ : ∃ m, mr = m + 1 := ⟨mr - 1, by omega⟩
  unfold AssemblyAIService.getTranscriptionStatusRun AssemblyAIService.retryOperation
  rw [retryGo_succ]
  dsimp only
  rw [show i + 1 - 1 = i from by omega, h]

/-- pollGo with no remaining iterations raises the timeout. -/
lemma pollGo_zero (env : Env) (mr rd att i : Nat) :
    AssemblyAIService.pollGo env mr rd 0 att i =
      (.error AssemblyAIService.timeoutMessage, []) := rfl

/-- Loop step: fetched result with a non-terminal status reports progress,
sleeps the poll interval, and continues with attempts + 1. -/
lemma pollGo_ok_nonterminal (env : Env) (mr rd rem att i : Nat)
    (r : TranscriptionResult)
    (hg : (AssemblyAIService.getTranscriptionStatusRun env mr rd i).res = .ok r)
    (h1 : r.status ≠ "completed") (h2 : r.status ≠ "error") :
    AssemblyAIService.pollGo env mr rd (rem + 1) att i =
      ((AssemblyAIService.pollGo env mr rd rem (att + 1)
          (AssemblyAIService.getTranscriptionStatusRun env mr rd i).next).1,
        (AssemblyAIService.getTranscriptionStatusRun env mr rd i).evs
          ++ [Ev.pollCb r.status (AssemblyAIService.calculateProgress r), Ev.sleep 5000]
          ++ (AssemblyAIService.pollGo env mr rd rem (att + 1)
              (AssemblyAIService.getTranscriptionStatusRun env mr rd i).next).2) := by
  simp only [AssemblyAIService.pollGo]
  rw [hg]
  dsimp only
  rw [if_neg h1, if_neg h2]
  simp

/-- Loop step: fetched result with status completed returns it at once. -/
lemma pollGo_ok_completed (env : Env) (mr rd rem att i : Nat)
    (r : TranscriptionResult)
    (hg : (AssemblyAIService.getTranscriptionStatusRun env mr rd i).res = .ok r)
    (h1 : r.status = "completed") :
    AssemblyAIService.pollGo env mr rd (rem + 1) att i =
      (.ok r, (AssemblyAIService.getTranscriptionStatusRun env mr rd i).evs
        ++ [Ev.pollCb r.status (AssemblyAIService.calculateProgress r)]) := by
  simp only [AssemblyAIService.pollGo]
  rw [hg]
  dsimp only
  rw [if_pos h1]

/-- Loop step: fetched result with status error throws; while attempts is
below maxRetries the loop catches it, sleeps retryDelay and retries. -/
lemma pollGo_ok_error_retry (env : Env) (mr rd rem att i : Nat)
    (r : TranscriptionResult)
    (hg : (AssemblyAIService.getTranscriptionStatusRun env mr rd i).res = .ok r)
    (h1 : r.status = "error") (hlt : att < mr) :
    AssemblyAIService.pollGo env mr rd (rem + 1) att i =
      ((AssemblyAIService.pollGo env mr rd rem (att + 1)
          (AssemblyAIService.getTranscriptionStatusRun env mr rd i).next).1,
        (AssemblyAIService.getTranscriptionStatusRun env mr rd i).evs
          ++ [Ev.pollCb r.status (AssemblyAIService.calculateProgress r), Ev.sleep rd]
          ++ (AssemblyAIService.pollGo env mr rd rem (att + 1)
              (AssemblyAIService.getTranscriptionStatusRun env mr rd i).next).2) := by
  simp only [AssemblyAIService.pollGo]
  rw [hg]
  dsimp only
  rw [if_neg (by rw [h1]; decide), if_pos h1, if_neg (by omega : ¬ att ≥ mr)]
  simp

/-- Loop step: fetched result with status error throws; once attempts has
reached maxRetries the error propagates wrapped with the polling context. -/
lemma pollGo_ok_error_final (env : Env) (mr rd rem att i : Nat)
    (r : TranscriptionResult)
    (hg : (AssemblyAIService.getTranscriptionStatusRun env mr rd i).res = .ok r)
    (h1 : r.status = "error") (hge : att ≥ mr) :
    AssemblyAIService.pollGo env mr rd (rem + 1) att i =
      (.error (AssemblyAIService.handleError
          { status := none, message := some (jsOrOpt r.error ("Transcription failed")) }
          AssemblyAIService.pollContext),
        (AssemblyAIService.getTranscriptionStatusRun env mr rd i).evs
          ++ [Ev.pollCb r.status (AssemblyAIService.calculateProgress r)]) := by
  simp only [AssemblyAIService.pollGo]
  rw [hg]
  dsimp only
  rw [if_neg (by rw [h1]; decide), if_pos h1, if_pos hge]

/-- Loop step: a fetch that throws is caught; while attempts is below
maxRetries the loop sleeps retryDelay and retries. -/
lemma pollGo_exn_retry (env : Env) (mr rd rem att i : Nat) (m : String)
    (hg : (AssemblyAIService.getTranscriptionStatusRun env mr rd i).res = .error m)
    (hlt : att < mr) :
    AssemblyAIService.pollGo env mr rd (rem + 1) att i =
      ((AssemblyAIService.pollGo env mr rd rem (att + 1)
          (AssemblyAIService.getTranscriptionStatusRun env mr rd i).next).1,
        (AssemblyAIService.getTranscriptionStatusRun env mr rd i).evs
          ++ [Ev.sleep rd]
          ++ (AssemblyAIService.pollGo env mr rd rem (att + 1)
              (AssemblyAIService.getTranscriptionStatusRun env mr rd i).next).2) := by
  simp only [AssemblyAIService.pollGo]
  rw [hg]
  dsimp only
  rw [if_neg (by omega : ¬ att ≥ mr)]

/-- Loop step: a fetch that throws once attempts has reached maxRetries
propagates wrapped with the polling context. -/
lemma pollGo_exn_final (env : Env) (mr rd rem att i : Nat) (m : String)
    (hg : (AssemblyAIService.getTranscriptionStatusRun env mr rd i).res = .error m)
    (hge : att ≥ mr) :
    AssemblyAIService.pollGo env mr rd (rem + 1) att i =
      (.error (AssemblyAIService.handleError { status := none, message := some m }
          AssemblyAIService.pollContext),
        (AssemblyAIService.getTranscriptionStatusRun env mr rd i).evs) := by
  simp only [AssemblyAIService.pollGo]
  rw [hg]
  dsimp only
  rw [if_pos hge]

lemma pollGo_allproc (env : Env) (mr rd : Nat) (hmr : 1 ≤ mr)
    (hf : ∀ n, ∃ raw, env.fetches n = .ok raw ∧ raw.status = "processing") :
    ∀ (rem att i : Nat),
    AssemblyAIService.pollGo env mr rd rem att i =
      (.error AssemblyAIService.timeoutMessage,
        (List.replicate rem [Ev.fetchCall, Ev.pollCb ("processing") 50, Ev.sleep 5000]).flatten) := by
  intro rem
  induction rem with
  | zero => intro att i; simp [pollGo_zero]
  | succ n ih =>
    intro att i
    obtain ⟨raw, hraw, hst⟩ := hf i
    have hgs := getStatusRun_ok env mr rd i hmr raw hraw
    have hres : (AssemblyAIService.getTranscriptionStatusRun env mr rd i).res
        = .ok (AssemblyAIService.mapTranscriptionToResult raw) := by rw [hgs]
    have hstat : (AssemblyAIService.mapTranscriptionToResult raw).status = "processing" := by
      rw [AssemblyAIService.mapT_status, hst]
    have hpct : AssemblyAIService.calculateProgress (AssemblyAIService.mapTranscriptionToResult raw)
        = 50 := by
      unfold AssemblyAIService.calculateProgress
      rw [hstat]
      decide
    rw [pollGo_ok_nonterminal env mr rd n att i _ hres (by rw [hstat]; decide) (by rw [hstat]; decide)]
    rw [ih (att + 1) ((AssemblyAIService.getTranscriptionStatusRun env mr rd i).next)]
    rw [hgs, hstat, hpct]
    simp [List.replicate_succ]

/-- C4: with a provider that always answers status processing and never
throws, the polling loop runs exactly 60 iterations, each one fetch, one
progress report and one 5000 ms sleep, and then fails with the timeout
message. -/
theorem c4_poll_timeout (env : Env) (mr rd : Nat) (hmr : 1 ≤ mr)
    (hf : ∀ n, ∃ raw, env.fetches n = .ok raw ∧ raw.status = "processing") :
    AssemblyAIService.pollTranscriptionStatus env mr rd =
      (.error AssemblyAIService.timeoutMessage,
        (List.replicate 60 [Ev.fetchCall, Ev.pollCb ("processing") 50, Ev.sleep 5000]).flatten) ∧
    fetchCount (AssemblyAIService.pollTranscriptionStatus env mr rd).2 = 60 ∧
    ((AssemblyAIService.pollTranscriptionStatus env mr rd).2.filter
      (fun e => e = Ev.sleep 5000)).length = 60 := by
  have h := pollGo_allproc env mr rd hmr hf 60 0 0
  refine ⟨h, ?_, ?_⟩
  · rw [AssemblyAIService.pollTranscriptionStatus, h]
    decide
  · rw [AssemblyAIService.pollTranscriptionStatus, h]
    decide

/-- C4 witness: the timeout run at a concrete always-processing provider. -/
theorem c4_witness :
    (1 ≤ 3) ∧
    AssemblyAIService.pollTranscriptionStatus
      { upload := .ok ("u"), create := fun _ => .ok ("t")
        fetches := fun _ => .ok { id := "t", status := "processing" } } 3 1000 =
      (.error AssemblyAIService.timeoutMessage,
        (List.replicate 60 [Ev.fetchCall, Ev.pollCb ("processing") 50, Ev.sleep 5000]).flatten) :=
  ⟨by decide,
    (c4_poll_timeout
      { upload := .ok ("u"), create := fun _ => .ok ("t")
        fetches := fun _ => .ok { id := "t", status := "processing" } } 3 1000
      (by decide) (fun n => ⟨{ id := "t", status := "processing" }, rfl, rfl⟩)).1⟩

lemma fetchCount_append (a b : List Ev) : fetchCount (a ++ b) = fetchCount a + fetchCount b := by
  simp [fetchCount, List.filter_append]

lemma fetchCount_err_block (rd : Nat) :
    ∀ m, fetchCount ((List.replicate m [Ev.fetchCall, Ev.pollCb ("error") 0, Ev.sleep rd]).flatten)
      = m := by
  intro m
  induction m with
  | zero => rfl
  | succ n ih =>
    rw [List.replicate_succ, List.flatten_cons, fetchCount_append, ih]
    simp [fetchCount]
    omega

/-- With a provider that always reports job status error, the loop catches its
own throw and retries until attempts reaches maxRetries, then propagates the
wrapped message. -/
lemma pollGo_allerrstatus (env : Env) (mr rd : Nat) (raw : RawTranscription)
    (hst : raw.status = "error") (henv : ∀ n, env.fetches n = .ok raw) :
    ∀ (rem att i : Nat), att < mr → mr - att < rem →
    AssemblyAIService.pollGo env mr rd rem att i =
      (.error (AssemblyAIService.pollContext ++ ": "
          ++ jsOrOpt raw.error ("Transcription failed")),
        (List.replicate (mr - att) [Ev.fetchCall, Ev.pollCb ("error") 0, Ev.sleep rd]).flatten
          ++ [Ev.fetchCall, Ev.pollCb ("error") 0]) := by
  intro rem
  induction rem with
  | zero => intro att i hlt hrem; omega
  | succ n ih =>
    intro att i hlt hrem
    have hgsA : ∀ j, AssemblyAIService.getTranscriptionStatusRun env mr rd j =
        { res := .ok (AssemblyAIService.mapTranscriptionToResult raw)
          next := j + 1, evs := [Ev.fetchCall] } :=
      fun j => getStatusRun_ok env mr rd j (by omega) raw (henv j)
    have hresA : ∀ j, (AssemblyAIService.getTranscriptionStatusRun env mr rd j).res
        = .ok (AssemblyAIService.mapTranscriptionToResult raw) := fun j => by rw [hgsA j]
    have hstat : (AssemblyAIService.mapTranscriptionToResult raw).status = "error" := by
      rw [AssemblyAIService.mapT_status, hst]
    have hpct : AssemblyAIService.calculateProgress
        (AssemblyAIService.mapTranscriptionToResult raw) = 0 := by
      unfold AssemblyAIService.calculateProgress
      rw [hstat]
      decide
    have herr : (AssemblyAIService.mapTranscriptionToResult raw).error = raw.error :=
      AssemblyAIService.mapT_error raw
    by_cases hfin : att + 1 = mr
    · obtain ⟨n2, rfl⟩ : ∃ n2, n = n2 + 1 := ⟨n - 1, by omega⟩
      rw [pollGo_ok_error_retry env mr rd (n2 + 1) att i _ (hresA i) hstat hlt,
        pollGo_ok_error_final env mr rd n2 (att + 1)
          ((AssemblyAIService.getTranscriptionStatusRun env mr rd i).next) _
          (hresA _) hstat (by omega)]
      have hone : mr - att = 1 := by omega
      have hwrap := AssemblyAIService.handleError_no_status
        (jsOrOpt raw.error ("Transcription failed")) AssemblyAIService.pollContext
        (AssemblyAIService.jsOrOpt_ne_empty raw.error ("Transcription failed") (by decide))
      simp [hgsA, hstat, hpct, herr, hone, hwrap]
    · rw [pollGo_ok_error_retry env mr rd n att i _ (hresA i) hstat hlt,
        ih (att + 1) ((AssemblyAIService.getTranscriptionStatusRun env mr rd i).next)
          (by omega) (by omega)]
      have hrep : mr - att = (mr - (att + 1)) + 1 := by omega
      rw [hrep, List.replicate_succ]
      simp [hgsA, hstat, hpct]

/-- C1 counterexample: with a provider that always reports job status error
(message boom) and default maxRetries = 3, the polling loop does NOT end at
the first error-status result: it performs 4 fetches, sleeping retryDelay
after each of the first three, because its own status-error throw is caught by
the loop catch and retried at the polling level. -/
theorem c1_counterexample :
    (AssemblyAIService.pollTranscriptionStatus
      { upload := .ok ("u"), create := fun _ => .ok ("t")
        fetches := fun _ => .ok { id := "t", status := "error", error := some ("boom") } }
      3 1000).1 = .error ("Failed to poll transcription status: boom") ∧
    fetchCount (AssemblyAIService.pollTranscriptionStatus
      { upload := .ok ("u"), create := fun _ => .ok ("t")
        fetches := fun _ => .ok { id := "t", status := "error", error := some ("boom") } }
      3 1000).2 = 4 ∧
    (AssemblyAIService.pollTranscriptionStatus
      { upload := .ok ("u"), create := fun _ => .ok ("t")
        fetches := fun _ => .ok { id := "t", status := "error", error := some ("boom") } }
      3 1000).2 =
      [Ev.fetchCall, Ev.pollCb ("error") 0, Ev.sleep 1000,
       Ev.fetchCall, Ev.pollCb ("error") 0, Ev.sleep 1000,
       Ev.fetchCall, Ev.pollCb ("error") 0, Ev.sleep 1000,
       Ev.fetchCall, Ev.pollCb ("error") 0] := by
  refine ⟨?_, ?_, ?_⟩ <;> decide

/-- C1 (amended): when an iteration fetches a result with status error, the
loop throws an error carrying the provider error message, but the throw is
caught by the loop's own catch clause: while attempts < maxRetries the loop
sleeps retryDelay and fetches again, and only once attempts reaches maxRetries
does the error propagate, wrapped in the polling context and still carrying
the provider message; with an always-error provider this takes maxRetries + 1
fetches, not one. -/
theorem c1_amended (env : Env) (mr rd : Nat) (raw : RawTranscription)
    (hmr : 1 ≤ mr) (hmr60 : mr < 60)
    (hst : raw.status = "error") (henv : ∀ n, env.fetches n = .ok raw) :
    AssemblyAIService.pollTranscriptionStatus env mr rd =
      (.error (AssemblyAIService.pollContext ++ ": "
          ++ jsOrOpt raw.error ("Transcription failed")),
        (List.replicate mr [Ev.fetchCall, Ev.pollCb ("error") 0, Ev.sleep rd]).flatten
          ++ [Ev.fetchCall, Ev.pollCb ("error") 0]) ∧
    fetchCount (AssemblyAIService.pollTranscriptionStatus env mr rd).2 = mr + 1 := by
  have h := pollGo_allerrstatus env mr rd raw hst henv 60 0 0 (by omega) (by omega)
  rw [show mr - 0 = mr from by omega] at h
  refine ⟨h, ?_⟩
  rw [AssemblyAIService.pollTranscriptionStatus, h]
  rw [fetchCount_append, fetchCount_err_block]
  simp [fetchCount]

/-- C1 witness: the amended statement at a concrete always-error provider with
defaults maxRetries = 3 and retryDelay = 1000. -/
theorem c1_witness :
    (1 ≤ 3 ∧ 3 < 60) ∧
    AssemblyAIService.pollTranscriptionStatus
      { upload := .ok ("u"), create := fun _ => .ok ("t")
        fetches := fun _ => .ok { id := "t", status := "error", error := some ("job exploded") } }
      3 1000 =
      (.error (AssemblyAIService.pollContext ++ ": "
          ++ jsOrOpt (some ("job exploded")) ("Transcription failed")),
        (List.replicate 3 [Ev.fetchCall, Ev.pollCb ("error") 0, Ev.sleep 1000]).flatten
          ++ [Ev.fetchCall, Ev.pollCb ("error") 0]) :=
  ⟨⟨by decide, by decide⟩,
    (c1_amended
      { upload := .ok ("u"), create := fun _ => .ok ("t")
        fetches := fun _ => .ok { id := "t", status := "error", error := some ("job exploded") } }
      3 1000 { id := "t", status := "error", error := some ("job exploded") }
      (by decide) (by decide) rfl (fun _ => rfl)).1⟩

/-- C10: successful non-terminal iterations and caught exceptions advance the
same attempts counter and consume the same remaining-iterations budget: a
caught exception (a fetch failure, or the throw on an error-status result)
with attempts < maxRetries sleeps retryDelay and continues at attempts + 1
with one fewer of the 60 iterations remaining, exactly like a non-terminal
success; once attempts ≥ maxRetries a caught exception propagates immediately,
wrapped with the polling context. -/
theorem c10_poll_retry_budget (env : Env) (mr rd rem att i : Nat) :
    (∀ m, (AssemblyAIService.getTranscriptionStatusRun env mr rd i).res = .error m →
      att < mr →
      AssemblyAIService.pollGo env mr rd (rem + 1) att i =
        ((AssemblyAIService.pollGo env mr rd rem (att + 1)
            (AssemblyAIService.getTranscriptionStatusRun env mr rd i).next).1,
          (AssemblyAIService.getTranscriptionStatusRun env mr rd i).evs ++ [Ev.sleep rd]
            ++ (AssemblyAIService.pollGo env mr rd rem (att + 1)
                (AssemblyAIService.getTranscriptionStatusRun env mr rd i).next).2)) ∧
    (∀ m, (AssemblyAIService.getTranscriptionStatusRun env mr rd i).res = .error m →
      att ≥ mr →
      AssemblyAIService.pollGo env mr rd (rem + 1) att i =
        (.error (AssemblyAIService.handleError { status := none, message := some m }
            AssemblyAIService.pollContext),
          (AssemblyAIService.getTranscriptionStatusRun env mr rd i).evs)) ∧
    (∀ r, (AssemblyAIService.getTranscriptionStatusRun env mr rd i).res = .ok r →
      r.status ≠ "completed" → r.status ≠ "error" →
      AssemblyAIService.pollGo env mr rd (rem + 1) att i =
        ((AssemblyAIService.pollGo env mr rd rem (att + 1)
            (AssemblyAIService.getTranscriptionStatusRun env mr rd i).next).1,
          (AssemblyAIService.getTranscriptionStatusRun env mr rd i).evs
            ++ [Ev.pollCb r.status (AssemblyAIService.calculateProgress r), Ev.sleep 5000]
            ++ (AssemblyAIService.pollGo env mr rd rem (att + 1)
                (AssemblyAIService.getTranscriptionStatusRun env mr rd i).next).2)) ∧
    (∀ r, (AssemblyAIService.getTranscriptionStatusRun env mr rd i).res = .ok r →
      r.status = "error" → att < mr →
      AssemblyAIService.pollGo env mr rd (rem + 1) att i =
        ((AssemblyAIService.pollGo env mr rd rem (att + 1)
            (AssemblyAIService.getTranscriptionStatusRun env mr rd i).next).1,
          (AssemblyAIService.getTranscriptionStatusRun env mr rd i).evs
            ++ [Ev.pollCb r.status (AssemblyAIService.calculateProgress r), Ev.sleep rd]
            ++ (AssemblyAIService.pollGo env mr rd rem (att + 1)
                (AssemblyAIService.getTranscriptionStatusRun env mr rd i).next).2)) := by
  refine ⟨?_, ?_, ?_, ?_⟩
  · intro m hg hlt
    exact pollGo_exn_retry env mr rd rem att i m hg hlt
  · intro m hg hge
    exact pollGo_exn_final env mr rd rem att i m hg hge
  · intro r hg h1 h2
    exact pollGo_ok_nonterminal env mr rd rem att i r hg h1 h2
  · intro r hg h1 hlt
    exact pollGo_ok_error_retry env mr rd rem att i r hg h1 hlt

/-- C10 witness: once attempts has reached maxRetries = 3, a single failing
fetch ends the poll with the doubly wrapped message. -/
theorem c10_witness :
    ((3 : Nat) ≥ 3) ∧
    AssemblyAIService.pollGo
      { upload := .ok ("u"), create := fun _ => .ok ("t")
        fetches := fun _ => .err { status := none, message := some ("netfail") } }
      3 1000 1 3 0 =
      (.error ("Failed to poll transcription status: Failed to get transcription status: Failed to get transcription status: netfail"),
        [Ev.fetchCall, Ev.sleep 1000, Ev.fetchCall, Ev.sleep 2000, Ev.fetchCall]) := by
  refine ⟨by decide, ?_⟩
  have h := (c10_poll_retry_budget
    { upload := .ok ("u"), create := fun _ => .ok ("t")
      fetches := fun _ => .err { status := none, message := some ("netfail") } }
    3 1000 0 3 0).2.1
    ("Failed to get transcription status: Failed to get transcription status: netfail")
    (by decide) (by decide)
  exact h.trans (by decide)

lemma cbs_append (a b : List Ev) : cbs (a ++ b) = cbs a ++ cbs b := by
  simp [cbs, List.filterMap_append]

lemma retryGo_evs_no_cb {T : Type} (op : Nat → Outcome T) (callEv : Ev) (msg : String)
    (rd : Nat) (hce : cbOf callEv = none) :
    ∀ (fuel att : Nat) (le : Option JSError),
    cbs (AssemblyAIService.retryGo op callEv msg rd fuel att le).evs = [] := by
  intro fuel
  induction fuel with
  | zero => intro att le; simp [AssemblyAIService.retryGo, cbs]
  | succ n ih =>
    intro att le
    rw [retryGo_succ]
    cases hop : op att with
    | ok t => simp [cbs, List.filterMap_cons, hce]
    | err e =>
      dsimp only
      by_cases hn : n = 0
      · simp [hn, cbs, List.filterMap_cons, hce]
      · rw [if_neg hn]
        have hsleep : cbOf (Ev.sleep (rd * 2 ^ (att - 1))) = none := rfl
        have := ih (att + 1) (some e)
        simp only [cbs] at this
        simp only [cbs, List.filterMap_cons, hce, hsleep]
        exact this

/-- uploadAndTranscribe never invokes a UI progress callback itself. -/
lemma cbs_uploadAndTranscribe (env : Env) (mr rd : Nat) (file : Option FileRec) :
    cbs (AssemblyAIService.uploadAndTranscribe env mr rd file).2 = [] := by
  unfold AssemblyAIService.uploadAndTranscribe
  cases AssemblyAIService.validateAudioFile file with
  | some e => simp [cbs]
  | none =>
    cases env.upload with
    | err e => simp [cbs, cbOf]
    | ok u =>
      have h := retryGo_evs_no_cb env.create Ev.createCall
        ("Failed to submit transcription request") rd rfl mr 1 none
      cases hres : (AssemblyAIService.retryOperation env.create Ev.createCall
          ("Failed to submit transcription request") mr rd).res with
      | ok id =>
        simp only [hres]
        simp [cbs, cbOf, List.filterMap_cons] at h ⊢
        exact h
      | error m =>
        simp only [hres]
        simp [cbs, cbOf, List.filterMap_cons] at h ⊢
        exact h

/-- Mapping the poll callback closure over a non-terminal block trace yields
one UI triple per poll iteration. -/
lemma cbs_lift_blocks (f : Nat → String) (p : Nat → Nat) :
    ∀ (l : List Nat),
    cbs (((l.map (fun j => [Ev.fetchCall, Ev.pollCb (f j) (p j), Ev.sleep 5000])).flatten).map
        TranscriptionService.liftEv)
      = l.map (fun j => (f j, TranscriptionService.adjustedProgress (p j),
          TranscriptionService.pollMessageFor (f j))) := by
  intro l
  induction l with
  | nil => rfl
  | cons a rest ih =>
    simp only [List.map_cons, List.flatten_cons, List.map_append, cbs_append, ih]
    simp [cbs, cbOf, TranscriptionService.liftEv]

/-- Trace of a successful poll: with fetches j < k non-terminal and fetch k
completed, the loop performs k + 1 fetches with one progress callback each,
sleeping 5000 ms after each non-terminal one, and returns the mapped result. -/
lemma pollGo_success (env : Env) (mr rd : Nat) (hmr : 1 ≤ mr)
    (raws : Nat → RawTranscription) (k : Nat)
    (hfetch : ∀ j, j ≤ k → env.fetches j = .ok (raws j))
    (hpre : ∀ j, j < k → (raws j).status ≠ "completed" ∧ (raws j).status ≠ "error")
    (hterm : (raws k).status = "completed") :
    ∀ (rem att i : Nat), i ≤ k → k - i < rem →
    AssemblyAIService.pollGo env mr rd rem att i =
      (.ok (AssemblyAIService.mapTranscriptionToResult (raws k)),
        ((List.range' i (k - i)).map (fun j =>
          [Ev.fetchCall, Ev.pollCb (raws j).status
            (AssemblyAIService.calculateProgress (AssemblyAIService.mapTranscriptionToResult (raws j))),
           Ev.sleep 5000])).flatten
        ++ [Ev.fetchCall, Ev.pollCb ("completed") 100]) := by
  intro rem
  induction rem with
  | zero => intro att i hik hrem; omega
  | succ n ih =>
    intro att i hik hrem
    by_cases heq : i = k
    · subst heq
      have hgs := getStatusRun_ok env mr rd i hmr (raws i) (hfetch i (by omega))
      have hres : (AssemblyAIService.getTranscriptionStatusRun env mr rd i).res
          = .ok (AssemblyAIService.mapTranscriptionToResult (raws i)) := by rw [hgs]
      have hstat : (AssemblyAIService.mapTranscriptionToResult (raws i)).status = "completed" := by
        rw [AssemblyAIService.mapT_status, hterm]
      have hpct : AssemblyAIService.calculateProgress
          (AssemblyAIService.mapTranscriptionToResult (raws i)) = 100 := by
        unfold AssemblyAIService.calculateProgress
        rw [hstat]
        decide
      rw [pollGo_ok_completed env mr rd n att i _ hres hstat]
      rw [hgs, hstat, hpct]
      simp
    · have hik2 : i < k := by omega
      have hgs := getStatusRun_ok env mr rd i hmr (raws i) (hfetch i (by omega))
      have hres : (AssemblyAIService.getTranscriptionStatusRun env mr rd i).res
          = .ok (AssemblyAIService.mapTranscriptionToResult (raws i)) := by rw [hgs]
      have hnc : (AssemblyAIService.mapTranscriptionToResult (raws i)).status ≠ "completed" := by
        rw [AssemblyAIService.mapT_status]
        exact (hpre i hik2).1
      have hne : (AssemblyAIService.mapTranscriptionToResult (raws i)).status ≠ "error" := by
        rw [AssemblyAIService.mapT_status]
        exact (hpre i hik2).2
      rw [pollGo_ok_nonterminal env mr rd n att i _ hres hnc hne]
      rw [hgs]
      dsimp only
      rw [ih (att + 1) (i + 1) (by omega) (by omega)]
      have hr : k - i = (k - (i + 1)) + 1 := by omega
      rw [hr, List.range'_succ]
      simp [AssemblyAIService.mapT_status]

lemma cbs_cb_cons (l : List Ev) (s : String) (p : Nat) (m : String) :
    cbs (Ev.cb s p m :: l) = (s, p, m) :: cbs l := rfl

/-- Monotone chain of poll percentages: after the 20 percent submission
callback, queued iterations report 28, processing iterations 60, and the
completed reports 100, in non-decreasing order as long as queued never follows
processing. -/
lemma chain_pcts (q : Nat) : ∀ (len s a : Nat),
    (a = 20 ∨ a = 28 ∨ (a = 60 ∧ q ≤ s)) →
    List.Chain' (· ≤ ·)
      (a :: ((List.range' s len).map (fun j => if j < q then 28 else 60) ++ [100, 100])) := by
  intro len
  induction len with
  | zero =>
    intro s a ha
    have h100 : a ≤ 100 := by rcases ha with rfl | rfl | ⟨rfl, -⟩ <;> omega
    rw [show List.range' s 0 = [] from rfl]
    simp only [List.map_nil, List.nil_append]
    exact List.chain'_cons.mpr ⟨h100,
      List.chain'_cons.mpr ⟨le_refl 100, List.chain'_singleton 100⟩⟩
  | succ n ih =>
    intro s a ha
    rw [List.range'_succ]
    simp only [List.map_cons, List.cons_append]
    refine List.chain'_cons.mpr ⟨?_, ?_⟩
    · by_cases hsq : s < q
      · rw [if_pos hsq]
        rcases ha with rfl | rfl | ⟨rfl, hqs⟩ <;> omega
      · rw [if_neg hsq]
        rcases ha with rfl | rfl | ⟨rfl, -⟩ <;> omega
    · by_cases hsq : s < q
      · rw [if_pos hsq]
        exact ih (s + 1) 28 (Or.inr (Or.inl rfl))
      · rw [if_neg hsq]
        exact ih (s + 1) 60 (Or.inr (Or.inr ⟨rfl, by omega⟩))

/-- C5 counterexample: a run whose poll completes with no text fires both the
completed callback at 100 and then the terminal error callback at 0, so the
percentages are not non-decreasing and completed and error both fire. -/
theorem c5_counterexample :
    cbs (TranscriptionService.startTranscription
      { upload := .ok ("u"), create := fun _ => .ok ("t")
        fetches := fun n => if n = 0 then .ok { id := "t", status := "processing" }
          else .ok { id := "t", status := "completed" } }
      3 1000 (some { name := "a.mp3", type := "audio/mp3", size := 5 })).2 =
      [("uploading", 10, "Uploading file to AssemblyAI..."),
       ("processing", 20, "Transcription started, processing audio..."),
       ("processing", 60, "Transcribing audio with speaker labels and sentiment analysis..."),
       ("completed", 100, "Transcription completed successfully!"),
       ("error", 0, "Transcription completed but no text was generated")] ∧
    ¬ List.Chain' (· ≤ ·)
      ((cbs (TranscriptionService.startTranscription
        { upload := .ok ("u"), create := fun _ => .ok ("t")
          fetches := fun n => if n = 0 then .ok { id := "t", status := "processing" }
            else .ok { id := "t", status := "completed" } }
        3 1000 (some { name := "a.mp3", type := "audio/mp3", size := 5 })).2).map
        (fun x => x.2.1)) ∧
    ("completed" ∈ (cbs (TranscriptionService.startTranscription
        { upload := .ok ("u"), create := fun _ => .ok ("t")
          fetches := fun n => if n = 0 then .ok { id := "t", status := "processing" }
            else .ok { id := "t", status := "completed" } }
        3 1000 (some { name := "a.mp3", type := "audio/mp3", size := 5 })).2).map
        (fun x => x.1) ∧
     "error" ∈ (cbs (TranscriptionService.startTranscription
        { upload := .ok ("u"), create := fun _ => .ok ("t")
          fetches := fun n => if n = 0 then .ok { id := "t", status := "processing" }
            else .ok { id := "t", status := "completed" } }
        3 1000 (some { name := "a.mp3", type := "audio/mp3", size := 5 })).2).map
        (fun x => x.1)) := by
  refine ⟨by decide, ?_, by decide, by decide⟩
  have hm : ((cbs (TranscriptionService.startTranscription
      { upload := .ok ("u"), create := fun _ => .ok ("t")
        fetches := fun n => if n = 0 then .ok { id := "t", status := "processing" }
          else .ok { id := "t", status := "completed" } }
      3 1000 (some { name := "a.mp3", type := "audio/mp3", size := 5 })).2).map
      (fun x => x.2.1)) = [10, 20, 60, 100, 0] := by decide
  rw [hm]
  intro hch
  simp [List.chain'_cons] at hch

/-- C5 (amended): in a run whose upload and submission succeed and whose
fetches report queued and then processing statuses (never reverting) before a
completed result with non-empty text, the UI callback percentages are
non-decreasing, no error callback fires, and the final callback reports 100
with status completed; in general both a completed callback and the terminal
error callback can fire in one run (when the polled result completes with
empty text) and the percentages then decrease from 100 to 0. -/
theorem c5_amended (env : Env) (mr rd : Nat) (hmr : 1 ≤ mr) (file : Option FileRec)
    (tid : String)
    (hok : (AssemblyAIService.uploadAndTranscribe env mr rd file).1 = .ok tid)
    (raws : Nat → RawTranscription) (k q : Nat) (hk : k < 60)
    (hfetch : ∀ j, j ≤ k → env.fetches j = .ok (raws j))
    (hst : ∀ j, j < k → (raws j).status = (if j < q then ("queued") else ("processing")))
    (hterm : (raws k).status = "completed")
    (htext : jsTruthyOpt (raws k).text = true) :
    cbs (TranscriptionService.startTranscription env mr rd file).2 =
      ("uploading", 10, "Uploading file to AssemblyAI...") ::
      ("processing", 20, "Transcription started, processing audio...") ::
      ((List.range' 0 k).map (fun j =>
        ((if j < q then ("queued") else ("processing")),
         (if j < q then (28 : Nat) else 60),
         TranscriptionService.pollMessageFor (if j < q then ("queued") else ("processing")))))
      ++ [("completed", 100, "Transcription completed successfully!"),
          ("completed", 100, "Transcription completed successfully!")] ∧
    List.Chain' (· ≤ ·)
      ((cbs (TranscriptionService.startTranscription env mr rd file).2).map (fun x => x.2.1)) ∧
    (∀ x ∈ cbs (TranscriptionService.startTranscription env mr rd file).2, x.1 ≠ "error") ∧
    (cbs (TranscriptionService.startTranscription env mr rd file).2).getLast? =
      some ("completed", 100, "Transcription completed successfully!") := by
  -- poll trace characterization
  have hpre : ∀ j, j < k → (raws j).status ≠ "completed" ∧ (raws j).status ≠ "error" := by
    intro j hj
    by_cases hjq : j < q
    · rw [hst j hj, if_pos hjq]
      exact ⟨by decide, by decide⟩
    · rw [hst j hj, if_neg hjq]
      exact ⟨by decide, by decide⟩
  have hpoll := pollGo_success env mr rd hmr raws k hfetch hpre hterm 60 0 0 (by omega) (by omega)
  rw [show k - 0 = k from rfl] at hpoll
  have hpoll2 : AssemblyAIService.pollTranscriptionStatus env mr rd =
      (.ok (AssemblyAIService.mapTranscriptionToResult (raws k)),
        ((List.range' 0 k).map (fun j =>
          [Ev.fetchCall, Ev.pollCb (raws j).status
            (AssemblyAIService.calculateProgress (AssemblyAIService.mapTranscriptionToResult (raws j))),
           Ev.sleep 5000])).flatten
        ++ [Ev.fetchCall, Ev.pollCb ("completed") 100]) := hpoll
  -- upload result destructuring
  obtain ⟨ur, uevs, hu⟩ : ∃ ur uevs,
      AssemblyAIService.uploadAndTranscribe env mr rd file = (ur, uevs) :=
    ⟨_, _, rfl⟩
  rw [hu] at hok
  dsimp only at hok
  subst hok
  have hucbs : cbs uevs = [] := by
    have h2 := cbs_uploadAndTranscribe env mr rd file
    rw [hu] at h2
    exact h2
  -- the full run
  have hsne : ¬ (AssemblyAIService.mapTranscriptionToResult (raws k)).status = "error" := by
    rw [AssemblyAIService.mapT_status, hterm]
    decide
  have htne : ¬ (jsTruthyOpt (AssemblyAIService.mapTranscriptionToResult (raws k)).text = false) := by
    rw [AssemblyAIService.mapT_text, htext]
    decide
  have hrun : TranscriptionService.startTranscription env mr rd file =
      (.ok (AssemblyAIService.mapTranscriptionToResult (raws k)),
        Ev.cb ("uploading") 10 ("Uploading file to AssemblyAI...") ::
        uevs ++ Ev.cb ("processing") 20 ("Transcription started, processing audio...") ::
        ((((List.range' 0 k).map (fun j =>
            [Ev.fetchCall, Ev.pollCb (raws j).status
              (AssemblyAIService.calculateProgress
                (AssemblyAIService.mapTranscriptionToResult (raws j))),
             Ev.sleep 5000])).flatten
          ++ [Ev.fetchCall, Ev.pollCb ("completed") 100]).map TranscriptionService.liftEv)
        ++ [Ev.cb ("completed") 100 ("Transcription completed successfully!")]) := by
    unfold TranscriptionService.startTranscription
    rw [hu]
    dsimp only
    rw [hpoll2]
    dsimp only
    rw [if_neg hsne, if_neg htne]
  -- UI callback trace
  have hcbs0 : cbs (TranscriptionService.startTranscription env mr rd file).2 =
      ("uploading", 10, "Uploading file to AssemblyAI...") ::
      ("processing", 20, "Transcription started, processing audio...") ::
      ((List.range' 0 k).map (fun j =>
        ((raws j).status,
         TranscriptionService.adjustedProgress
           (AssemblyAIService.calculateProgress
             (AssemblyAIService.mapTranscriptionToResult (raws j))),
         TranscriptionService.pollMessageFor (raws j).status)))
      ++ [("completed", 100, "Transcription completed successfully!"),
          ("completed", 100, "Transcription completed successfully!")] := by
    rw [hrun]
    dsimp only
    have hB : cbs (List.map TranscriptionService.liftEv [Ev.fetchCall, Ev.pollCb ("completed") 100])
        = [("completed", 100, "Transcription completed successfully!")] := rfl
    have hC : cbs [Ev.cb ("completed") 100 ("Transcription completed successfully!")]
        = [("completed", 100, "Transcription completed successfully!")] := rfl
    simp only [cbs_append, cbs_cb_cons, hucbs, List.map_append, cbs_lift_blocks, hB, hC]
    simp
  -- replace statuses and percentages by their literal values
  have hmapeq : (List.range' 0 k).map (fun j =>
        ((raws j).status,
         TranscriptionService.adjustedProgress
           (AssemblyAIService.calculateProgress
             (AssemblyAIService.mapTranscriptionToResult (raws j))),
         TranscriptionService.pollMessageFor (raws j).status)) =
      (List.range' 0 k).map (fun j =>
        ((if j < q then ("queued") else ("processing")),
         (if j < q then (28 : Nat) else 60),
         TranscriptionService.pollMessageFor (if j < q then ("queued") else ("processing")))) := by
    apply List.map_congr_left
    intro j hj
    have hjk : j < k := by
      have := List.mem_range'_1.mp hj
      omega
    have hs := hst j hjk
    have hpct : AssemblyAIService.calculateProgress
        (AssemblyAIService.mapTranscriptionToResult (raws j))
        = (if j < q then 10 else 50) := by
      unfold AssemblyAIService.calculateProgress
      rw [AssemblyAIService.mapT_status, hs]
      by_cases hjq : j < q
      · simp only [if_pos hjq]
        decide
      · simp only [if_neg hjq]
        decide
    rw [hs, hpct]
    by_cases hjq : j < q
    · simp only [if_pos hjq]
      rfl
    · simp only [if_neg hjq]
      rfl
  have hcbs : cbs (TranscriptionService.startTranscription env mr rd file).2 =
      ("uploading", 10, "Uploading file to AssemblyAI...") ::
      ("processing", 20, "Transcription started, processing audio...") ::
      ((List.range' 0 k).map (fun j =>
        ((if j < q then ("queued") else ("processing")),
         (if j < q then (28 : Nat) else 60),
         TranscriptionService.pollMessageFor (if j < q then ("queued") else ("processing")))))
      ++ [("completed", 100, "Transcription completed successfully!"),
          ("completed", 100, "Transcription completed successfully!")] := by
    rw [hcbs0, hmapeq]
  refine ⟨hcbs, ?_, ?_, ?_⟩
  · -- monotone percentages
    rw [hcbs]
    have hmp : (("uploading", (10 : Nat), "Uploading file to AssemblyAI...") ::
        ("processing", 20, "Transcription started, processing audio...") ::
        ((List.range' 0 k).map (fun j =>
          ((if j < q then ("queued") else ("processing")),
           (if j < q then (28 : Nat) else 60),
           TranscriptionService.pollMessageFor (if j < q then ("queued") else ("processing")))))
        ++ [("completed", 100, "Transcription completed successfully!"),
            ("completed", 100, "Transcription completed successfully!")]).map
          (fun x : String × Nat × String => x.2.1) =
        10 :: 20 :: ((List.range' 0 k).map (fun j => if j < q then 28 else 60) ++ [100, 100]) := by
      simp [List.map_append]
    rw [hmp]
    exact List.chain'_cons.mpr ⟨by omega, chain_pcts q k 0 20 (Or.inl rfl)⟩
  · -- no error callback
    rw [hcbs]
    intro x hx
    rcases List.mem_append.mp hx with h1 | h2
    · rcases List.mem_cons.mp h1 with rfl | h1b
      · decide
      rcases List.mem_cons.mp h1b with rfl | h1c
      · decide
      obtain ⟨j, hj, hxeq⟩ := List.mem_map.mp h1c
      subst hxeq
      dsimp only
      by_cases hjq : j < q
      · simp only [if_pos hjq]
        decide
      · simp only [if_neg hjq]
        decide
    · rcases List.mem_cons.mp h2 with rfl | h2b
      · decide
      rcases List.mem_cons.mp h2b with rfl | h2c
      · decide
      exact absurd h2c (List.not_mem_nil x)
  · -- last callback is completed at 100
    rw [hcbs]
    rw [show (("uploading", (10 : Nat), "Uploading file to AssemblyAI...") ::
        ("processing", 20, "Transcription started, processing audio...") ::
        ((List.range' 0 k).map (fun j =>
          ((if j < q then ("queued") else ("processing")),
           (if j < q then (28 : Nat) else 60),
           TranscriptionService.pollMessageFor (if j < q then ("queued") else ("processing")))))
        ++ [("completed", 100, "Transcription completed successfully!"),
            ("completed", 100, "Transcription completed successfully!")]) =
        (("uploading", 10, "Uploading file to AssemblyAI...") ::
        ("processing", 20, "Transcription started, processing audio...") ::
        ((List.range' 0 k).map (fun j =>
          ((if j < q then ("queued") else ("processing")),
           (if j < q then (28 : Nat) else 60),
           TranscriptionService.pollMessageFor (if j < q then ("queued") else ("processing")))))
        ++ [("completed", 100, "Transcription completed successfully!")])
        ++ [("completed", 100, "Transcription completed successfully!")] from by simp]
    exact List.getLast?_concat _

/-- C5 witness: a run with one processing fetch and then a completed fetch
with text has non-decreasing percentages and ends with the completed callback
at 100. -/
theorem c5_witness :
    ((1 : Nat) ≤ 3 ∧ (1 : Nat) < 60) ∧
    List.Chain' (· ≤ ·)
      ((cbs (TranscriptionService.startTranscription
        { upload := .ok ("u"), create := fun _ => .ok ("t")
          fetches := fun j => .ok (if j = 0 then { id := "t", status := "processing" }
            else { id := "t", status := "completed", text := some ("hello world") }) }
        3 1000 (some { name := "a.mp3", type := "audio/mp3", size := 5 })).2).map
        (fun x => x.2.1)) ∧
    (cbs (TranscriptionService.startTranscription
        { upload := .ok ("u"), create := fun _ => .ok ("t")
          fetches := fun j => .ok (if j = 0 then { id := "t", status := "processing" }
            else { id := "t", status := "completed", text := some ("hello world") }) }
        3 1000 (some { name := "a.mp3", type := "audio/mp3", size := 5 })).2).getLast? =
      some ("completed", 100, "Transcription completed successfully!") := by
  have h := c5_amended
    { upload := .ok ("u"), create := fun _ => .ok ("t")
      fetches := fun j => .ok (if j = 0 then { id := "t", status := "processing" }
        else { id := "t", status := "completed", text := some ("hello world") }) }
    3 1000 (by decide)
    (some { name := "a.mp3", type := "audio/mp3", size := 5 }) ("t") (by decide)
    (fun j => if j = 0 then { id := "t", status := "processing" }
      else { id := "t", status := "completed", text := some ("hello world") })
    1 0 (by decide)
    (fun j hj => rfl)
    (by
      intro j hj
      have hj0 : j = 0 := by omega
      subst hj0
      decide)
    (by decide) (by decide)
  exact ⟨⟨by decide, by decide⟩, h.2.1, h.2.2.2⟩

/-- C7 witness: the utterances shape wins at a concrete record that also
carries a flat speaker-labels array, and absent sentiment yields none. -/
theorem c7_witness :
    (AssemblyAIService.mapTranscriptionToResult
      { id := "t", status := "completed",
        utterances := some
          [{ speaker := "A", text := "hello", start := 0, «end» := 1000, confidence := 1 }],
        speaker_labels := some (.arr
          [{ speaker := "B", text := "other", start := 5, «end» := 6, confidence := 1 }]) }).speakers
      = [{ speaker := "A", text := "hello", start := 0, «end» := 1000, confidence := 1 }] ∧
    (AssemblyAIService.mapTranscriptionToResult
      { id := "t", status := "completed",
        utterances := some
          [{ speaker := "A", text := "hello", start := 0, «end» := 1000, confidence := 1 }],
        speaker_labels := some (.arr
          [{ speaker := "B", text := "other", start := 5, «end» := 6, confidence := 1 }]) }).sentiment
      = none := by
  have h := c7_normalizer_shape_tolerance
    { id := "t", status := "completed",
      utterances := some
        [{ speaker := "A", text := "hello", start := 0, «end» := 1000, confidence := 1 }],
      speaker_labels := some (.arr
        [{ speaker := "B", text := "other", start := 5, «end» := 6, confidence := 1 }]) }
  exact ⟨h.1 _ rfl, h.2.2.2.2.1 rfl⟩

/-- C6 counterexample: a 1-byte file of type audio/mp4 is accepted by the
UI-facing validator but rejected by the Provider Client validator, so the two
validators do not accept the same set of files. -/
theorem c6_counterexample :
    (validateAudioFile (some { name := "a.mp4", type := "audio/mp4", size := 1 })).isValid = true ∧
    AssemblyAIService.validateAudioFile (some { name := "a.mp4", type := "audio/mp4", size := 1 })
      = some ("Unsupported file type: audio/mp4") := by
  constructor
  · rfl
  · rfl

/-- C6 (amended): the two validators agree on the 100 MiB size limit, on the
rejection of empty and missing files, and on every media type except
audio/mp4, which only the UI-facing allow-list contains: for every file whose
type is not audio/mp4, the UI validator accepts exactly when the Provider
Client validator accepts, and both reject a missing file. -/
theorem c6_amended (f : FileRec) (hf : f.type ≠ "audio/mp4") :
    ((validateAudioFile (some f)).isValid = true ↔
      AssemblyAIService.validateAudioFile (some f) = none) ∧
    (validateAudioFile none).isValid = false ∧
    AssemblyAIService.validateAudioFile none = some ("No file provided") := by
  refine ⟨?_, rfl, rfl⟩
  have hmem : f.type ∈ SUPPORTED_AUDIO_TYPES ↔ f.type ∈ AssemblyAIService.supportedTypes := by
    simp only [SUPPORTED_AUDIO_TYPES, AssemblyAIService.supportedTypes,
      List.mem_cons, List.not_mem_nil, or_false]
    constructor
    · rintro (h | h | h | h | h) <;> simp_all
    · rintro (h | h | h | h) <;> simp_all
  unfold validateAudioFile AssemblyAIService.validateAudioFile
  by_cases hm : f.type ∈ AssemblyAIService.supportedTypes
  · have hbig : f.type ∈ SUPPORTED_AUDIO_TYPES := hmem.mpr hm
    simp only [hbig, if_pos, hm, MAX_FILE_SIZE]
    split_ifs <;> simp_all
  · have hbig : f.type ∉ SUPPORTED_AUDIO_TYPES := fun h => hm (hmem.mp h)
    simp [hbig, hm]

/-- C6 witness: the amended equivalence at a concrete mp3 file. -/
theorem c6_witness :
    (({ name := "a.mp3", type := "audio/mp3", size := 5 } : FileRec).type ≠ "audio/mp4") ∧
    ((validateAudioFile (some { name := "a.mp3", type := "audio/mp3", size := 5 })).isValid = true ↔
      AssemblyAIService.validateAudioFile
        (some { name := "a.mp3", type := "audio/mp3", size := 5 }) = none) :=
  ⟨by decide, (c6_amended { name := "a.mp3", type := "audio/mp3", size := 5 } (by decide)).1⟩

/-- C8: for both validators, a non-empty file of a supported type of exactly
100 * 1024 * 1024 bytes passes; one byte over fails; a zero-byte file fails;
an unsupported MIME type fails; and whenever the Provider Client validator
rejects, uploadAndTranscribe fails with the wrapped validation message and an
empty event trace, so no network call is attempted. -/
theorem c8_validation_boundary (f : FileRec) :
    (f.type ∈ AssemblyAIService.supportedTypes → f.size = MAX_FILE_SIZE →
      AssemblyAIService.validateAudioFile (some f) = none) ∧
    (f.type ∈ SUPPORTED_AUDIO_TYPES → f.size = MAX_FILE_SIZE → f.name ≠ "" →
      validateAudioFile (some f) = { isValid := true }) ∧
    (f.size = MAX_FILE_SIZE + 1 →
      AssemblyAIService.validateAudioFile (some f) ≠ none ∧
      (validateAudioFile (some f)).isValid = false) ∧
    (f.size = 0 →
      AssemblyAIService.validateAudioFile (some f) ≠ none ∧
      (validateAudioFile (some f)).isValid = false) ∧
    (f.type ∉ AssemblyAIService.supportedTypes →
      AssemblyAIService.validateAudioFile (some f) = some ("Unsupported file type: " ++ f.type)) ∧
    (f.type ∉ SUPPORTED_AUDIO_TYPES → (validateAudioFile (some f)).isValid = false) ∧
    (∀ (env : Env) (mr rd : Nat) (e : String),
      AssemblyAIService.validateAudioFile (some f) = some e →
      AssemblyAIService.uploadAndTranscribe env mr rd (some f) =
        (.error (AssemblyAIService.uploadContext ++ ": " ++ e), [])) := by
  have hmax : ¬ (MAX_FILE_SIZE > MAX_FILE_SIZE) := by omega
  have hmax0 : MAX_FILE_SIZE ≠ 0 := by decide
  refine ⟨?_, ?_, ?_, ?_, ?_, ?_, ?_⟩
  · intro ht hs
    simp [AssemblyAIService.validateAudioFile, ht, hs, MAX_FILE_SIZE]
  · intro ht hs hn
    simp [validateAudioFile, ht, hs, hmax, hmax0, hn]
  · intro hs
    constructor
    · by_cases ht : f.type ∈ AssemblyAIService.supportedTypes
      · simp [AssemblyAIService.validateAudioFile, ht, hs, MAX_FILE_SIZE]
      · simp [AssemblyAIService.validateAudioFile, ht]
    · by_cases ht : f.type ∈ SUPPORTED_AUDIO_TYPES
      · simp [validateAudioFile, ht, hs, MAX_FILE_SIZE]
      · simp [validateAudioFile, ht]
  · intro hs
    constructor
    · by_cases ht : f.type ∈ AssemblyAIService.supportedTypes
      · simp [AssemblyAIService.validateAudioFile, ht, hs]
      · simp [AssemblyAIService.validateAudioFile, ht]
    · by_cases ht : f.type ∈ SUPPORTED_AUDIO_TYPES
      · simp [validateAudioFile, ht, hs, MAX_FILE_SIZE]
      · simp [validateAudioFile, ht]
  · intro ht
    simp [AssemblyAIService.validateAudioFile, ht]
  · intro ht
    simp [validateAudioFile, ht]
  · intro env mr rd e he
    have hne := AssemblyAIService.validateAudioFile_msg_ne_empty (some f) e he
    simp [AssemblyAIService.uploadAndTranscribe, he,
      AssemblyAIService.handleError_no_status e AssemblyAIService.uploadContext hne]

/-- C8 witness: the boundary cases evaluated at concrete files. -/
theorem c8_witness :
    (({ name := "a.mp3", type := "audio/mp3", size := MAX_FILE_SIZE } : FileRec).type
        ∈ AssemblyAIService.supportedTypes ∧
      AssemblyAIService.validateAudioFile
        (some { name := "a.mp3", type := "audio/mp3", size := MAX_FILE_SIZE }) = none) ∧
    AssemblyAIService.uploadAndTranscribe
      { upload := .ok ("u"), create := fun _ => .ok ("t"), fetches := fun _ => .err { status := none, message := none } }
      3 1000 (some { name := "a.mp3", type := "audio/mp3", size := 0 }) =
      (.error ("Failed to upload and transcribe audio file: File is empty"), []) :=
  ⟨⟨by decide,
    (c8_validation_boundary { name := "a.mp3", type := "audio/mp3", size := MAX_FILE_SIZE }).1
      (by decide) rfl⟩,
   (c8_validation_boundary { name := "a.mp3", type := "audio/mp3", size := 0 }).2.2.2.2.2.2
     _ 3 1000 ("File is empty") rfl⟩

/-- C9: handleError maps status 401 to the invalid-credentials message, 403 to
access denied, 429 to rate limit, 400 to the audio-format message, 500 to the
upstream-service message, and any other or missing status code to the context
joined with the raw error message. -/
theorem c9_handle_error_mapping (e : JSError) (context : String) :
    (e.status = some 401 →
      AssemblyAIService.handleError e context =
        "Invalid API key. Please check your AssemblyAI credentials.") ∧
    (e.status = some 403 →
      AssemblyAIService.handleError e context = "Access denied. Please check your API permissions.") ∧
    (e.status = some 429 →
      AssemblyAIService.handleError e context = "Rate limit exceeded. Please try again later.") ∧
    (e.status = some 400 →
      AssemblyAIService.handleError e context = "Invalid request. Please check your audio file format.") ∧
    (e.status = some 500 →
      AssemblyAIService.handleError e context = "AssemblyAI service error. Please try again later.") ∧
    (∀ s m, e.status = some s → s ∉ ([401, 403, 429, 400, 500] : List Nat) →
      e.message = some m → m ≠ "" →
      AssemblyAIService.handleError e context = context ++ ": " ++ m) ∧
    (∀ m, e.status = none → e.message = some m → m ≠ "" →
      AssemblyAIService.handleError e context = context ++ ": " ++ m) := by
  refine ⟨?_, ?_, ?_, ?_, ?_, ?_, ?_⟩
  · intro h; simp [AssemblyAIService.handleError, h]
  · intro h; simp [AssemblyAIService.handleError, h]
  · intro h; simp [AssemblyAIService.handleError, h]
  · intro h; simp [AssemblyAIService.handleError, h]
  · intro h; simp [AssemblyAIService.handleError, h]
  · intro s m hs hnot hm hne
    simp only [List.mem_cons, List.not_mem_nil, or_false, not_or] at hnot
    obtain ⟨h1, h2, h3, h4, h5⟩ := hnot
    by_cases h0 : s = 0
    · subst h0
      simp [AssemblyAIService.handleError, hs, AssemblyAIService.handleNoStatus, hm, hne]
    · simp [AssemblyAIService.handleError, hs, h0, h1, h2, h3, h4, h5, jsMsg, jsOrOpt, hm, hne]
  · intro m hs hm hne
    simp [AssemblyAIService.handleError, hs, AssemblyAIService.handleNoStatus, hm, hne]

/-- C9 witness: the 401 and generic branches at concrete errors. -/
theorem c9_witness :
    AssemblyAIService.handleError { status := some 401, message := some ("raw http failure") }
      ("Failed to get transcription status") =
      "Invalid API key. Please check your AssemblyAI credentials." ∧
    AssemblyAIService.handleError { status := some 418, message := some ("teapot") } ("ctx") =
      "ctx: teapot" :=
  ⟨(c9_handle_error_mapping { status := some 401, message := some ("raw http failure") }
      ("Failed to get transcription status")).1 rfl,
   (c9_handle_error_mapping { status := some 418, message := some ("teapot") } ("ctx")).2.2.2.2.2.1
     418 ("teapot") rfl (by decide) rfl (by decide)⟩

end SaleSmell
